import Mathlib

/-
Verification of the core invariants of the fecsy ECS runtime (a synchronous
fork of becsy).  The definitions below are shallow embeddings of the
TypeScript source files src/component.ts, src/planner.ts and src/world.ts.
Parts of the runtime whose implementation files are not present (the
dispatcher flush queue, the graph topological sort, the deferred component
removal sweep and the coroutine engine) are modelled from the specification;
each such definition carries a doc comment starting with
"Modelled from the spec:".
-/

set_option autoImplicit false

namespace Fecsy

/-- Errors surfaced by the runtime: CheckError for authoring mistakes and
InternalError for engine invariant violations (src/errors.ts interface). -/
inductive Err where
  | check (msg : String)
  | internal (msg : String)
  deriving DecidableEq, Repr

/-! ## PackedStorage (src/component.ts lines 196-314)

The source keeps `index` as an `Int8Array`/`Int16Array`/`Int32Array` of
length `maxEntities` initialized to -1, and `spares` as a typed array whose
layout is `[bytesPerElement, nextIndex, capacity, numSpares, ...spareIndices]`.
The element type is auto-selected so slot values never overflow, so plain
integers model the arrays faithfully.  We model `index` as a `List Int`
(-1 meaning unallocated), `nextIndex` for `spares[1]`, `capacity` for
`spares[2]` (which mirrors `binding.capacity`), and the spare-slot stack as a
`List Nat` whose head is the logical end of the source array, i.e. the most
recently pushed (released) slot.  The spares array growth (`growSpares`)
only enlarges the stack storage and never changes its contents, so the
unbounded list absorbs it. -/
structure PackedStorage where
  maxEntities : Nat
  elastic : Bool
  capacity : Nat
  nextIndex : Nat
  spares : List Nat
  index : List Int
  deriving DecidableEq, Repr

namespace PackedStorage

/-- PackedStorage.acquireIndex: return the entity's existing slot if any;
otherwise pop the spare-slot stack; otherwise take the next unused slot,
first doubling the capacity (capped at maxEntities) when full and elastic,
or failing with CheckError when full and fixed. -/
def acquireIndex (s : PackedStorage) (id : Nat) : Except Err (Nat × PackedStorage) :=
  let idx := s.index.getD id (-1)
  if idx ≠ -1 then .ok (idx.toNat, s)
  else
    match s.spares with
    | i :: rest =>
        .ok (i, { s with spares := rest, index := s.index.set id (Int.ofNat i) })
    | [] =>
        if s.nextIndex = s.capacity then
          if !s.elastic then
            .error (.check "Storage exhausted for component; raise its capacity")
          else if s.capacity = s.maxEntities then
            .error (.internal "Trying to grow storage index for component beyond maxEntities")
          else
            let cap := min s.maxEntities (s.capacity * 2)
            .ok (s.nextIndex,
                 { s with capacity := cap,
                          nextIndex := s.nextIndex + 1,
                          index := s.index.set id (Int.ofNat s.nextIndex) })
        else
          .ok (s.nextIndex,
               { s with nextIndex := s.nextIndex + 1,
                        index := s.index.set id (Int.ofNat s.nextIndex) })

/-- PackedStorage.releaseIndex: push the entity's slot onto the spare stack
and clear its index entry; InternalError if the entity holds no slot. -/
def releaseIndex (s : PackedStorage) (id : Nat) : Except Err PackedStorage :=
  let idx := s.index.getD id (-1)
  if idx = -1 then
    .error (.internal "Index for entity in component not allocated")
  else
    .ok { s with spares := idx.toNat :: s.spares, index := s.index.set id (-1) }

end PackedStorage

/-! ## CompactStorage (src/component.ts lines 316-396)

The source keeps `index` as an `Int32Array` of length `binding.capacity`
(-1 meaning empty); `updateIndex` maintains `binding.capacity = index.length`.
We model it as a `List Int`. -/
structure CompactStorage where
  maxEntities : Nat
  elastic : Bool
  index : List Int
  deriving DecidableEq, Repr

namespace CompactStorage

/-- The linear scan of CompactStorage.acquireIndex: returns `.inl i` when
position `i` holds `id`, else `.inr firstEmpty` where `firstEmpty` is the
first position holding -1 (if any).  `pos` is the position of the list head,
`firstEmpty` the accumulator. -/
def scanAcquire (id : Nat) : List Int → Nat → Option Nat → Sum Nat (Option Nat)
  | [], _, firstEmpty => .inr firstEmpty
  | x :: rest, pos, firstEmpty =>
      if x = Int.ofNat id then .inl pos
      else scanAcquire id rest (pos + 1)
        (if firstEmpty = none ∧ x = -1 then some pos else firstEmpty)

/-- The linear scan of CompactStorage.findIndex: first position holding `id`. -/
def findIndexFrom (id : Nat) : List Int → Nat → Option Nat
  | [], _ => none
  | x :: rest, pos =>
      if x = Int.ofNat id then some pos else findIndexFrom id rest (pos + 1)

/-- CompactStorage.findIndex: the slot holding `id`, or -1. -/
def findIndex (s : CompactStorage) (id : Nat) : Int :=
  match findIndexFrom id s.index 0 with
  | some i => Int.ofNat i
  | none => -1

/-- CompactStorage.acquireIndex: return the entity's slot if present; else
fill the first empty slot; else grow (doubling capacity, capped at
maxEntities, the freshly appended slots empty) when elastic, or fail with
CheckError when fixed. -/
def acquireIndex (s : CompactStorage) (id : Nat) : Except Err (Nat × CompactStorage) :=
  match scanAcquire id s.index 0 none with
  | .inl i => .ok (i, s)
  | .inr (some j) => .ok (j, { s with index := s.index.set j (Int.ofNat id) })
  | .inr none =>
      if !s.elastic then
        .error (.check "Storage exhausted for component; raise its capacity")
      else if s.index.length = s.maxEntities then
        .error (.internal "Trying to grow storage index for component beyond maxEntities")
      else
        let firstEmpty := s.index.length
        let cap := min s.maxEntities (s.index.length * 2)
        let grown := s.index ++ List.replicate (cap - s.index.length) (-1)
        .ok (firstEmpty, { s with index := grown.set firstEmpty (Int.ofNat id) })

/-- CompactStorage.releaseIndex: clear the slot holding `id`, or fail with
InternalError if no slot holds it. -/
def releaseIndex (s : CompactStorage) (id : Nat) : Except Err CompactStorage :=
  match findIndexFrom id s.index 0 with
  | some i => .ok { s with index := s.index.set i (-1) }
  | none => .error (.internal "Index for entity in component not allocated")

end CompactStorage

/-! ## Planner (src/planner.ts)

Systems and component types are identified by their dense integer ids. -/

/-- A system's declared entitlement for one component type: read, write or
none, as declared by its query builder (spec section 4.3). -/
inductive Access where
  | noAccess
  | readAccess
  | writeAccess
  deriving DecidableEq, Repr

/-- The planner inputs for one system group: the group's systems, the
registered component types, and each system's declared entitlements, from
which buildQueries populates the Planner.readers and Planner.writers maps. -/
structure PlannerInput where
  systems : List Nat
  componentTypes : List Nat
  ent : Nat → Nat → Access

/-- The Planner.readers entry of a component type: the group's systems that
declared read access to it. -/
def readersOf (p : PlannerInput) (c : Nat) : List Nat :=
  p.systems.filter fun s => decide (p.ent s c = Access.readAccess)

/-- The Planner.writers entry of a component type: the group's systems that
declared write access to it. -/
def writersOf (p : PlannerInput) (c : Nat) : List Nat :=
  p.systems.filter fun s => decide (p.ent s c = Access.writeAccess)

/-- Planner.addComponentEntitlementDependencies: for each component type, for
each reader, for each writer, the edge writer -> reader. -/
def entitlementEdges (p : PlannerInput) : List (Nat × Nat) :=
  p.componentTypes.flatMap fun c =>
    (readersOf p c).flatMap fun r =>
      (writersOf p c).map fun w => (w, r)

/-- Modelled from the spec: Graph.topologicallySortedVertices (the Graph
class of src/datatypes/graph.ts is not among the sources).  The resolved
plan order for a group is a permutation of the group's systems in which the
source of every graph edge appears strictly before its target. -/
def IsTopoOrder (order : List Nat) (vertices : List Nat)
    (edges : List (Nat × Nat)) : Prop :=
  order.Perm vertices ∧ ∀ e ∈ edges, order.indexOf e.1 < order.indexOf e.2

/-! ## SimplePlan.execute and the flush discipline (src/planner.ts 41-50) -/

/-- A system as the plan sees it: the list of effects (abstract ids) that its
execute() enqueues on the dispatcher. -/
structure SysModel where
  effects : List Nat
  deriving DecidableEq, Repr

/-- Modelled from the spec: the dispatcher's deferred-mutation state
(dispatcher.ts is not among the sources): effects enqueued but not yet
applied, and effects already applied. -/
structure DispatcherState where
  pending : List Nat
  applied : List Nat
  deriving DecidableEq, Repr

/-- Modelled from the spec: dispatcher.flush applies every deferred effect
enqueued so far. -/
def dispatcherFlush (d : DispatcherState) : DispatcherState :=
  ⟨[], d.applied ++ d.pending⟩

/-- Running one system enqueues its effects on the dispatcher. -/
def runSystem (sys : SysModel) (d : DispatcherState) : DispatcherState :=
  ⟨d.pending ++ sys.effects, d.applied⟩

/-- SimplePlan.execute: run the topologically sorted systems one at a time,
flushing the dispatcher immediately after each.  The first component records,
for each system, the applied-effect list it observes when it starts. -/
def planExecute : List SysModel → DispatcherState → List (List Nat) × DispatcherState
  | [], d => ([], d)
  | sys :: rest, d =>
      let observed := d.applied
      let next := planExecute rest (dispatcherFlush (runSystem sys d))
      (observed :: next.1, next.2)

/-! ## Component type registration (src/component.ts 448-589) -/

/-- The three storage strategies. -/
inductive StorageKind where
  | sparse
  | packed
  | compact
  deriving DecidableEq, Repr

/-- The storage strategy chosen by assimilateComponentType: a component with
at least one field uses its declared storage option, defaulting to the
world's defaultComponentStorage; a tag component (no fields) is forced to
sparse storage. -/
def selectStorage (numFields : Nat) (optStorage : Option StorageKind)
    (defaultStorage : StorageKind) : StorageKind :=
  if numFields ≠ 0 then optStorage.getD defaultStorage else .sparse

/-- What the allocate hook installed by defineAndAllocateComponentType does:
the sparse case binds the entity id directly as the slot with no storage
manager at all, while packed and compact acquire a slot from their storage
manager. -/
inductive AllocBehavior where
  | bindEntityIdDirectly
  | acquireFromPackedStorage
  | acquireFromCompactStorage
  deriving DecidableEq, Repr

/-- The storage-manager switch of defineAndAllocateComponentType. -/
def allocBehavior : StorageKind → AllocBehavior
  | .sparse => .bindEntityIdDirectly
  | .packed => .acquireFromPackedStorage
  | .compact => .acquireFromCompactStorage

/-! ## World lifecycle guard (src/world.ts build and createEntity) -/

/-- The dispatcher lifecycle states (spec section 3, world state machine). -/
inductive WorldLifecycleState where
  | setup
  | initializing
  | running
  | quiescent
  | finalizing
  | done
  deriving DecidableEq, Repr

/-- The dispatcher call each method forwards to when its guard passes. -/
inductive WorldCall where
  | executeFunction
  | dispatcherCreateEntity
  deriving DecidableEq, Repr

/-- World.build: throws CheckError when the dispatcher state is not setup,
unless the process object exists and NODE_ENV is test; otherwise forwards to
dispatcher.executeFunction. -/
def worldBuild (state : WorldLifecycleState) (processDefined : Bool)
    (nodeEnv : String) : Except Err WorldCall :=
  if state ≠ .setup ∧ (processDefined = false ∨ nodeEnv ≠ "test") then
    .error (.check "This method cannot be called after the world has started executing")
  else .ok .executeFunction

/-- World.createEntity: same guard as World.build, forwarding to
dispatcher.createEntity. -/
def worldCreateEntity (state : WorldLifecycleState) (processDefined : Bool)
    (nodeEnv : String) : Except Err WorldCall :=
  if state ≠ .setup ∧ (processDefined = false ∨ nodeEnv ≠ "test") then
    .error (.check "This method cannot be called after the world has started executing")
  else .ok .dispatcherCreateEntity

/-! ## Binding read/write instances (src/component.ts 65-179)

The Binding keeps a master object and a current instance for each access
mode: the writable pair (writableMaster/writableInstance with
writableEntityId/writableIndex) and an independent readonly pair
(readonlyMaster/readonlyInstance with readonlyEntityId/readonlyIndex).  In
CHECK builds resetWritableInstance and resetReadonlyInstance — two methods
that are field-for-field identical up to the pair they operate on — mark the
previous instance __invalid and replace it by a fresh one whenever the
binding is elastic or has capacity above 1.  We model instances by the
sequence number in which the side issued them: `currentInstance` is the
live instance, `nextInstanceId` the next unissued number, and `invalidated`
the instances marked __invalid. -/
structure InstanceSide where
  nextInstanceId : Nat
  currentInstance : Nat
  invalidated : List Nat
  boundEntityId : Nat
  boundIndex : Nat
  deriving DecidableEq, Repr

/-- A Binding: the elastic flag and capacity shared by both access modes,
and the two independent instance sides. -/
structure BindingModel where
  elastic : Bool
  capacity : Nat
  writable : InstanceSide
  readonly : InstanceSide
  deriving DecidableEq, Repr

/-- The shared body of Binding.resetWritableInstance and
Binding.resetReadonlyInstance: refuse an unacquired slot (DEBUG
InternalError); record the bound entity and slot; when the binding is
elastic or its capacity is above 1, mark the previous instance __invalid
and issue a fresh one, otherwise return the same instance. -/
def resetInstance (elastic : Bool) (capacity : Nat) (side : InstanceSide)
    (entityId : Nat) (index : Int) : Except Err (Nat × InstanceSide) :=
  if index = -1 then
    .error (.internal "Attempt to bind unacquired entity")
  else if elastic = true ∨ capacity > 1 then
    .ok (side.nextInstanceId,
         { side with boundEntityId := entityId, boundIndex := index.toNat,
                     invalidated := side.currentInstance :: side.invalidated,
                     currentInstance := side.nextInstanceId,
                     nextInstanceId := side.nextInstanceId + 1 })
  else
    .ok (side.currentInstance,
         { side with boundEntityId := entityId, boundIndex := index.toNat })

/-- Binding.resetWritableInstance (component.ts 150-163): resetInstance on
the binding's writable side. -/
def resetWritableInstance (b : BindingModel) (entityId : Nat) (index : Int) :
    Except Err (Nat × BindingModel) :=
  (resetInstance b.elastic b.capacity b.writable entityId index).map
    fun p => (p.1, { b with writable := p.2 })

/-- Binding.resetReadonlyInstance (component.ts 165-178): resetInstance on
the binding's readonly side. -/
def resetReadonlyInstance (b : BindingModel) (entityId : Nat) (index : Int) :
    Except Err (Nat × BindingModel) :=
  (resetInstance b.elastic b.capacity b.readonly entityId index).map
    fun p => (p.1, { b with readonly := p.2 })

/-- One side as the Binding constructor leaves it: instance 0 is current,
and starts out marked __invalid exactly when the binding is fixed with
capacity above 1. -/
def initSide (elastic : Bool) (capacity : Nat) : InstanceSide :=
  ⟨1, 0, if elastic = false ∧ capacity > 1 then [0] else [], 0, 0⟩

/-- The Binding constructor: both sides start in the initSide state. -/
def initBinding (elastic : Bool) (capacity : Nat) : BindingModel :=
  ⟨elastic, capacity, initSide elastic capacity, initSide elastic capacity⟩

/-- An instance that is a currently usable view of its side: issued and not
marked __invalid. -/
def ValidInstance (side : InstanceSide) (i : Nat) : Prop :=
  i < side.nextInstanceId ∧ i ∉ side.invalidated

/-- Well-formedness of a side's bookkeeping: the current instance and all
invalidated instances have been issued. -/
def SideWF (side : InstanceSide) : Prop :=
  side.currentInstance < side.nextInstanceId ∧
  ∀ i ∈ side.invalidated, i < side.nextInstanceId

/-! ## Resurrection scenario (tests/validators.test.ts, AddRemoveBToA)

One entity (id 0) and one packed uint8 component B.  The storage is the
PackedStorage model above; the shape bit, the removal deferral and the
post-frame sweep are modelled from the spec, since the registry and the
dispatcher are not among the sources. -/
structure ResState where
  storage : PackedStorage
  values : List Nat
  hasB : Bool
  removedAtFrame : Option Nat
  frame : Nat
  lastValue : Nat
  deriving DecidableEq, Repr

/-- The world of the resurrection test: maxEntities 100, packed storage for
B (one uint8 field), elastic with the default initialCapacity of 8. -/
def resInit : ResState :=
  ⟨⟨100, true, 8, 0, [], List.replicate 100 (-1)⟩,
   List.replicate 8 0, false, none, 0, 0⟩

/-- entity.add(B, value): acquire a slot (the packed storage hands back the
still-held slot while the release is deferred) and initialize the uint8
field, truncated to a byte; a pending deferred removal is superseded. -/
def addB (s : ResState) (v : Nat) : Except Err ResState := do
  let (slot, st) ← s.storage.acquireIndex 0
  .ok { s with storage := st, values := s.values.set slot (v % 256),
               hasB := true, removedAtFrame := none }

/-- entity.remove(B): clear the shape bit and defer the slot release.
Modelled from the spec: the registry defers releaseIndex to a post-frame
sweep instead of releasing inside remove. -/
def removeB (s : ResState) : ResState :=
  { s with hasB := false, removedAtFrame := some s.frame }

/-- entity.read(B).value: allowed when the shape bit is set, or when the
caller opted into accessRecentlyDeletedData and the removal has not yet been
finally swept; otherwise the component is not present (CheckError).  Binding
an unacquired slot would be the DEBUG InternalError. -/
def readB (s : ResState) (optIn : Bool) : Except Err Nat :=
  if s.hasB = true ∨ (optIn = true ∧ s.removedAtFrame ≠ none) then
    let idx := s.storage.index.getD 0 (-1)
    if idx = -1 then .error (.internal "Attempt to bind unacquired entity")
    else .ok (s.values.getD idx.toNat 0)
  else .error (.check "Component B is not present on this entity")

/-- Modelled from the spec: the post-frame sweep that finally releases the
slot of a removed component.  A removal performed in frame f stays readable
through accessRecentlyDeletedData for one further frame and is released by
the sweep at the end of frame f+1, matching the resurrection scenario of the
spec (value readable in frame 3, gone in frame 4). -/
def sweepRes (s : ResState) : Except Err ResState :=
  match s.removedAtFrame with
  | some f =>
      if f < s.frame then do
        let st ← s.storage.releaseIndex 0
        .ok { s with storage := st, removedAtFrame := none }
      else .ok s
  | none => .ok s

/-- One world.execute() of the AddRemoveBToA system: frames 1 and 2 perform
add(B, iteration); remove(B); frames 3 onward opt into recently-deleted
access and accumulate entity.read(B).value into lastValue; then the
post-frame sweep runs. -/
def resFrame (s0 : ResState) : Except Err ResState := do
  let s := { s0 with frame := s0.frame + 1 }
  let s2 ←
    if s.frame ≤ 2 then do
      let s1 ← addB s s.frame
      Except.ok (removeB s1)
    else do
      let v ← readB s true
      Except.ok { s with lastValue := s.lastValue + v }
  sweepRes s2

/-- Run n calls of world.execute() of the resurrection test world. -/
def resRun : Nat → Except Err ResState
  | 0 => .ok resInit
  | n + 1 => do
      let s ← resRun n
      resFrame s

/-! ## Coroutine nesting (spec section 4.5)

The coroutine engine implementation is not among the sources (only the
Generator handle interface is), so the engine is modelled from the spec. -/

/-- Modelled from the spec: a coroutine body as a state machine over a shared
counter, with the closed yield type (spec section 9) restricted to the forms
the nesting scenario uses: a plain frame yield and yielding a started
child coroutine. -/
inductive CoProg where
  | incr (n : Int) (k : CoProg)
  | yieldNext (k : CoProg)
  | startChildAndAwait (child : CoProg) (k : Int → CoProg)
  | ret (v : Int)

/-- A suspended coroutine with the chain of parents awaiting it: either a
runnable program, or a parent suspended on a nested child. -/
inductive CoTree where
  | runnable (p : CoProg)
  | awaiting (child : CoTree) (k : Int → CoProg)

/-- The outcome of advancing a coroutine for one frame. -/
inductive CoOutcome where
  | paused (t : CoTree)
  | finished (v : Int)

/-- Modelled from the spec: advance a coroutine body until it yields a frame
or returns.  Yielding a started child runs the child within the same frame
and suspends the parent on it until it completes, whereupon the child's
return value is supplied at the parent's resume. -/
def stepProg (counter : Int) : CoProg → Int × CoOutcome
  | .incr n k => stepProg (counter + n) k
  | .yieldNext k => (counter, .paused (.runnable k))
  | .startChildAndAwait child k =>
      match stepProg counter child with
      | (c2, .finished v) => stepProg c2 (k v)
      | (c2, .paused t) => (c2, .paused (.awaiting t k))
  | .ret v => (counter, .finished v)

/-- Modelled from the spec: advance a suspended coroutine one frame.  A
parent suspended on a child advances only the child, and is resumed with the
return value only when the child completes. -/
def stepTree (counter : Int) : CoTree → Int × CoOutcome
  | .runnable p => stepProg counter p
  | .awaiting child k =>
      match stepTree counter child with
      | (c2, .finished v) => stepProg c2 (k v)
      | (c2, .paused t) => (c2, .paused (.awaiting t k))

/-- Whether an outcome is a parent still suspended on an incomplete child. -/
def CoOutcome.isSuspendedOnChild : CoOutcome → Bool
  | .paused (.awaiting _ _) => true
  | _ => false

/-- The nested coroutine of the test: adds 1 to the counter, yields once,
then returns 5. -/
def nestedChild : CoProg :=
  .incr 1 (.yieldNext (.ret 5))

/-- The wrapper coroutine of StartNestedCoroutine: adds 1, yields the started
child, then adds the value the yield produced. -/
def nestedWrapper : CoProg :=
  .incr 1 (.startChildAndAwait nestedChild fun v => .incr v (.ret 0))

/-- Advance the wrapper scenario by n frames from counter 0, returning the
counter and the outcome. -/
def runWrapper : Nat → Int × CoOutcome
  | 0 => (0, .paused (.runnable nestedWrapper))
  | n + 1 =>
      match runWrapper n with
      | (c, .paused t) => stepTree c t
      | (c, .finished v) => (c, .finished v)

/-- Helper: a fixed (non-elastic) packed storage never changes its capacity
on a successful acquire. -/
theorem packed_acquire_fixed_capacity (s s2 : PackedStorage) (id r : Nat)
    (hel : s.elastic = false) (hacq : s.acquireIndex id = .ok (r, s2)) :
    s2.capacity = s.capacity := by
  unfold PackedStorage.acquireIndex at hacq
  by_cases h : s.index.getD id (-1) ≠ -1
  · simp only [if_pos h] at hacq
    cases hacq; rfl
  · simp only [if_neg h] at hacq
    cases hsp : s.spares with
    | cons top rest =>
        rw [hsp] at hacq; cases hacq; rfl
    | nil =>
        rw [hsp] at hacq
        by_cases hnext : s.nextIndex = s.capacity
        · simp [hnext, hel] at hacq
        · simp only [if_neg hnext] at hacq
          cases hacq; rfl

/-- If an id is absent from a compact index and no slot is empty, the
acquire scan finds neither a match nor a first empty slot. -/
theorem scanAcquire_full (id : Nat) (l : List Int) (pos : Nat)
    (hid : Int.ofNat id ∉ l) (hfull : (-1 : Int) ∉ l) :
    CompactStorage.scanAcquire id l pos none = .inr none := by
  induction l generalizing pos with
  | nil => rfl
  | cons x rest ih =>
      have hx : x ≠ Int.ofNat id := by
        intro hxe; exact hid (hxe ▸ List.mem_cons_self x rest)
      have hx1 : x ≠ -1 := by
        intro hxe; exact hfull (hxe ▸ List.mem_cons_self x rest)
      simp only [CompactStorage.scanAcquire, if_neg hx, hx1]
      simpa using ih (pos + 1) (fun h => hid (List.mem_cons_of_mem x h))
        (fun h => hfull (List.mem_cons_of_mem x h))

/-- If the findIndex scan locates an id, the acquire scan locates the same
position, whatever first-empty accumulator it carries. -/
theorem scanAcquire_of_findIndexFrom (id : Nat) (l : List Int) (pos i : Nat)
    (fe : Option Nat) (h : CompactStorage.findIndexFrom id l pos = some i) :
    CompactStorage.scanAcquire id l pos fe = .inl i := by
  induction l generalizing pos fe with
  | nil => simp [CompactStorage.findIndexFrom] at h
  | cons x rest ih =>
      by_cases hx : x = Int.ofNat id
      · simp only [CompactStorage.findIndexFrom, if_pos hx] at h
        simp only [CompactStorage.scanAcquire, if_pos hx]
        exact congrArg Sum.inl (Option.some.inj h)
      · simp only [CompactStorage.findIndexFrom, if_neg hx] at h
        simp only [CompactStorage.scanAcquire, if_neg hx]
        exact ih (pos + 1) _ h

end Fecsy

namespace Fecsy

/-- C4: packed slot allocation pops the most recently released slot from the
spare stack when it is non-empty; otherwise assigns the next unused slot;
when all slots up to capacity are used and the binding is elastic it first
doubles the capacity, capped at maxEntities; and releaseIndex pushes the
released slot on top of the stack, so allocation is LIFO. -/
theorem packed_slot_allocation_policy :
    (∀ (s : PackedStorage) (id top : Nat) (rest : List Nat),
        s.index.getD id (-1) = -1 → s.spares = top :: rest →
        s.acquireIndex id =
          .ok (top, { s with spares := rest,
                             index := s.index.set id (Int.ofNat top) })) ∧
    (∀ (s : PackedStorage) (id : Nat),
        s.index.getD id (-1) = -1 → s.spares = [] → s.nextIndex ≠ s.capacity →
        s.acquireIndex id =
          .ok (s.nextIndex,
               { s with nextIndex := s.nextIndex + 1,
                        index := s.index.set id (Int.ofNat s.nextIndex) })) ∧
    (∀ (s : PackedStorage) (id : Nat),
        s.index.getD id (-1) = -1 → s.spares = [] → s.nextIndex = s.capacity →
        s.elastic = true → s.capacity ≠ s.maxEntities →
        s.acquireIndex id =
          .ok (s.nextIndex,
               { s with capacity := min s.maxEntities (s.capacity * 2),
                        nextIndex := s.nextIndex + 1,
                        index := s.index.set id (Int.ofNat s.nextIndex) })) ∧
    (∀ (s : PackedStorage) (id slot : Nat),
        s.index.getD id (-1) = Int.ofNat slot →
        s.releaseIndex id =
          .ok { s with spares := slot :: s.spares,
                       index := s.index.set id (-1) }) := by
  refine ⟨?_, ?_, ?_, ?_⟩
  · intro s id top rest h hsp
    simp only [PackedStorage.acquireIndex, h, hsp]
    norm_num
  · intro s id h hsp hne
    simp only [PackedStorage.acquireIndex, h, hsp]
    simp [hne]
  · intro s id h hsp hnext hel hcap
    simp only [PackedStorage.acquireIndex, h, hsp]
    simp [hnext, hel, hcap]
  · intro s id slot h
    have hne : Int.ofNat slot ≠ -1 := by intro hc; simp at hc
    simp only [PackedStorage.releaseIndex, h, if_neg hne]
    simp

/-- C4 witness: a concrete release followed by an acquire hands back the
just-released slot, a fresh allocation takes the next slot, and an elastic
grow doubles the capacity. -/
theorem packed_slot_allocation_policy_witness :
    (PackedStorage.acquireIndex ⟨100, true, 8, 3, [1, 0], [-1, 9, -1]⟩ 0 =
      .ok (1, ⟨100, true, 8, 3, [0], [1, 9, -1]⟩)) ∧
    (PackedStorage.acquireIndex ⟨100, true, 8, 3, [], [-1, 9, -1]⟩ 0 =
      .ok (3, ⟨100, true, 8, 4, [], [3, 9, -1]⟩)) ∧
    (PackedStorage.acquireIndex ⟨100, true, 8, 8, [], [-1, 9, -1]⟩ 0 =
      .ok (8, ⟨100, true, 16, 9, [], [8, 9, -1]⟩)) ∧
    (PackedStorage.releaseIndex ⟨100, true, 8, 3, [4], [-1, 2, -1]⟩ 1 =
      .ok ⟨100, true, 8, 3, [2, 4], [-1, -1, -1]⟩) :=
  ⟨packed_slot_allocation_policy.1 ⟨100, true, 8, 3, [1, 0], [-1, 9, -1]⟩ 0 1 [0]
      (by decide) rfl,
   packed_slot_allocation_policy.2.1 ⟨100, true, 8, 3, [], [-1, 9, -1]⟩ 0
      (by decide) rfl (by decide),
   packed_slot_allocation_policy.2.2.1 ⟨100, true, 8, 8, [], [-1, 9, -1]⟩ 0
      (by decide) rfl rfl rfl (by decide),
   packed_slot_allocation_policy.2.2.2 ⟨100, true, 8, 3, [4], [-1, 2, -1]⟩ 1 2
      (by decide)⟩

/-- C5: with fixed (non-elastic) storage, acquiring when every slot is in use
fails with the CheckError raised synchronously from the acquire call, for both
packed and compact storage; and a successful fixed acquire never changes the
capacity. -/
theorem fixed_storage_capacity_exhausted :
    (∀ (s : PackedStorage) (id : Nat),
        s.elastic = false → s.index.getD id (-1) = -1 → s.spares = [] →
        s.nextIndex = s.capacity →
        s.acquireIndex id =
          .error (.check "Storage exhausted for component; raise its capacity")) ∧
    (∀ (s : CompactStorage) (id : Nat),
        s.elastic = false → Int.ofNat id ∉ s.index → (-1 : Int) ∉ s.index →
        s.acquireIndex id =
          .error (.check "Storage exhausted for component; raise its capacity")) ∧
    (∀ (s s2 : PackedStorage) (id r : Nat),
        s.elastic = false → s.acquireIndex id = .ok (r, s2) →
        s2.capacity = s.capacity) ∧
    (∀ (s s2 : CompactStorage) (id r : Nat),
        s.elastic = false → s.acquireIndex id = .ok (r, s2) →
        s2.index.length = s.index.length) := by
  refine ⟨?_, ?_, ?_, ?_⟩
  · intro s id hel h hsp hnext
    simp only [PackedStorage.acquireIndex, h, hsp]
    simp [hnext, hel]
  · intro s id hel hid hfull
    simp [CompactStorage.acquireIndex, scanAcquire_full id s.index 0 hid hfull, hel]
  · intro s s2 id r hel hacq
    exact packed_acquire_fixed_capacity s s2 id r hel hacq
  · intro s s2 id r hel hacq
    unfold CompactStorage.acquireIndex at hacq
    cases hscan : CompactStorage.scanAcquire id s.index 0 none with
    | inl i =>
        rw [hscan] at hacq; cases hacq; rfl
    | inr fe =>
        rw [hscan] at hacq
        cases fe with
        | some j =>
            cases hacq
            simp
        | none => simp [hel] at hacq

/-- C5 witness: a full fixed packed storage and a full fixed compact storage
both refuse a new entity with the CheckError, and a fixed compact acquire that
succeeds leaves the capacity at its configured value. -/
theorem fixed_storage_capacity_exhausted_witness :
    (PackedStorage.acquireIndex ⟨100, false, 2, 2, [], [-1, 0, 1]⟩ 0 =
      .error (.check "Storage exhausted for component; raise its capacity")) ∧
    (CompactStorage.acquireIndex ⟨100, false, [4, 7]⟩ 5 =
      .error (.check "Storage exhausted for component; raise its capacity")) ∧
    ((⟨100, false, 2, 2, [], [1, 0, -1]⟩ : PackedStorage).capacity =
      (⟨100, false, 2, 1, [], [-1, 0, -1]⟩ : PackedStorage).capacity) ∧
    ((⟨100, false, [4, 5]⟩ : CompactStorage).index.length =
      (⟨100, false, [4, -1]⟩ : CompactStorage).index.length) :=
  ⟨fixed_storage_capacity_exhausted.1 ⟨100, false, 2, 2, [], [-1, 0, 1]⟩ 0
      rfl (by decide) rfl rfl,
   fixed_storage_capacity_exhausted.2.1 ⟨100, false, [4, 7]⟩ 5
      rfl (by decide) (by decide),
   fixed_storage_capacity_exhausted.2.2.1 ⟨100, false, 2, 1, [], [-1, 0, -1]⟩
      ⟨100, false, 2, 2, [], [1, 0, -1]⟩ 0 1 rfl (by rfl),
   fixed_storage_capacity_exhausted.2.2.2 ⟨100, false, [4, -1]⟩
      ⟨100, false, [4, 5]⟩ 5 1 rfl (by rfl)⟩

/-- C10: acquireIndex is idempotent for an entity that already holds a slot:
both the packed and the compact storage return the existing slot and leave
the whole storage state (free list, next-slot counter, index table and
capacity) unchanged. -/
theorem acquireIndex_idempotent :
    (∀ (s : PackedStorage) (id slot : Nat),
        s.index.getD id (-1) = Int.ofNat slot →
        s.acquireIndex id = .ok (slot, s)) ∧
    (∀ (s : CompactStorage) (id i : Nat),
        CompactStorage.findIndexFrom id s.index 0 = some i →
        s.acquireIndex id = .ok (i, s)) := by
  constructor
  · intro s id slot h
    have hne : (Int.ofNat slot) ≠ -1 := by intro hc; simp at hc
    simp only [PackedStorage.acquireIndex, h, if_pos hne]
    simp
  · intro s id i h
    simp [CompactStorage.acquireIndex,
      scanAcquire_of_findIndexFrom id s.index 0 i none h]

/-- C10 witness: re-acquiring an already allocated entity returns its existing
slot and the unchanged storage, for packed and compact storage. -/
theorem acquireIndex_idempotent_witness :
    (PackedStorage.acquireIndex ⟨100, true, 8, 3, [2], [-1, 1, -1]⟩ 1 =
      .ok (1, ⟨100, true, 8, 3, [2], [-1, 1, -1]⟩)) ∧
    (CompactStorage.acquireIndex ⟨100, true, [-1, 7, -1]⟩ 7 =
      .ok (1, ⟨100, true, [-1, 7, -1]⟩)) :=
  ⟨acquireIndex_idempotent.1 ⟨100, true, 8, 3, [2], [-1, 1, -1]⟩ 1 1 (by decide),
   acquireIndex_idempotent.2 ⟨100, true, [-1, 7, -1]⟩ 7 1 (by decide)⟩

/-- C1: in any resolved execution plan of a system group (a topological order
of the group's dependency graph, whose edge list contains the edges added by
Planner.addComponentEntitlementDependencies on top of any explicit schedule
edges), every system declaring write access to a component type appears
strictly before every system declaring read access to it, so within one
execute() call all writers of the type run before any of its readers. -/
theorem writers_ordered_before_readers
    (p : PlannerInput) (explicitEdges : List (Nat × Nat)) (order : List Nat)
    (c w r : Nat) (hc : c ∈ p.componentTypes)
    (hw : w ∈ writersOf p c) (hr : r ∈ readersOf p c)
    (htopo : IsTopoOrder order p.systems (explicitEdges ++ entitlementEdges p)) :
    order.indexOf w < order.indexOf r := by
  have hmem : (w, r) ∈ entitlementEdges p := by
    simp only [entitlementEdges, List.mem_flatMap, List.mem_map]
    exact ⟨c, hc, r, hr, w, hw, rfl⟩
  exact htopo.2 (w, r) (List.mem_append_right explicitEdges hmem)

/-- C1 witness: a two-system group where system 0 writes component 0 and
system 1 reads it; in the topological order listing system 0 first, the
writer precedes the reader. -/
theorem writers_ordered_before_readers_witness :
    List.indexOf 0 [0, 1] < List.indexOf 1 [0, 1] :=
  writers_ordered_before_readers
    ⟨[0, 1], [0], fun s _ => if s = 0 then .writeAccess else .readAccess⟩
    [] [0, 1] 0 0 1 (by decide) (by decide) (by decide)
    ⟨List.Perm.refl _, by decide⟩

/-- C2: SimplePlan.execute runs the plan's systems one at a time in order,
with a dispatcher flush immediately after each, so starting from an empty
deferred queue the i-th system observes exactly the prior applied effects
plus the effects enqueued by systems 0..i-1, and after the call every
enqueued effect is applied and the deferred queue is empty. -/
theorem execute_flushes_between_systems (systems : List SysModel) (a0 : List Nat) :
    (∀ i, i < systems.length →
      (planExecute systems ⟨[], a0⟩).1.getD i [] =
        a0 ++ ((systems.take i).map SysModel.effects).flatten) ∧
    (planExecute systems ⟨[], a0⟩).2 =
      ⟨[], a0 ++ (systems.map SysModel.effects).flatten⟩ := by
  induction systems generalizing a0 with
  | nil =>
      exact ⟨fun i hi => absurd hi (by simp), by simp [planExecute]⟩
  | cons sys rest ih =>
      constructor
      · intro i hi
        cases i with
        | zero => simp [planExecute]
        | succ n =>
            have hrec := (ih (a0 ++ sys.effects)).1 n (by simpa using hi)
            simp only [planExecute, dispatcherFlush, runSystem, List.nil_append,
              List.getD_cons_succ, List.take_succ_cons, List.map_cons,
              List.flatten_cons] at hrec ⊢
            rw [hrec, List.append_assoc]
      · have hrec := (ih (a0 ++ sys.effects)).2
        simp only [planExecute, dispatcherFlush, runSystem, List.nil_append,
          List.map_cons, List.flatten_cons] at hrec ⊢
        rw [hrec, List.append_assoc]

/-- C2 witness: with two systems enqueuing effects 10 and 20, the second
system observes effect 10 already applied when it starts, and after the call
both effects are applied with nothing pending. -/
theorem execute_flushes_between_systems_witness :
    ((planExecute [⟨[10]⟩, ⟨[20]⟩] ⟨[], []⟩).1.getD 1 [] = [10]) ∧
    (planExecute [⟨[10]⟩, ⟨[20]⟩] ⟨[], []⟩).2 = ⟨[], [10, 20]⟩ :=
  ⟨(execute_flushes_between_systems [⟨[10]⟩, ⟨[20]⟩] []).1 1 (by decide),
   (execute_flushes_between_systems [⟨[10]⟩, ⟨[20]⟩] []).2⟩

/-- C8: a component type whose schema declares no fields is assigned sparse
storage by assimilateComponentType regardless of its declared storage option
and of the world's defaultComponentStorage, and the sparse allocate hook
binds the entity id directly without any slot-allocating storage manager. -/
theorem tag_components_forced_sparse :
    ∀ (optStorage : Option StorageKind) (defaultStorage : StorageKind),
      selectStorage 0 optStorage defaultStorage = .sparse ∧
      allocBehavior (selectStorage 0 optStorage defaultStorage) =
        .bindEntityIdDirectly := by
  intro o d
  exact ⟨rfl, rfl⟩

/-- C9: World.build and World.createEntity throw the CheckError whenever the
dispatcher state is not setup and the process is not in test mode, and both
proceed in the setup state or in test mode. -/
theorem build_createEntity_state_guard :
    ∀ (st : WorldLifecycleState) (pd : Bool) (env : String),
      ((st ≠ .setup ∧ ¬(pd = true ∧ env = "test")) →
        worldBuild st pd env =
          .error (.check "This method cannot be called after the world has started executing") ∧
        worldCreateEntity st pd env =
          .error (.check "This method cannot be called after the world has started executing")) ∧
      (st = .setup →
        worldBuild st pd env = .ok .executeFunction ∧
        worldCreateEntity st pd env = .ok .dispatcherCreateEntity) ∧
      ((pd = true ∧ env = "test") →
        worldBuild st pd env = .ok .executeFunction ∧
        worldCreateEntity st pd env = .ok .dispatcherCreateEntity) := by
  refine fun st pd env => ⟨?_, ?_, ?_⟩
  · rintro ⟨h1, h2⟩
    have hcond : st ≠ .setup ∧ (pd = false ∨ env ≠ "test") := by
      refine ⟨h1, ?_⟩
      cases pd with
      | false => exact .inl rfl
      | true => exact .inr fun he => h2 ⟨rfl, he⟩
    exact ⟨by simp only [worldBuild, if_pos hcond],
           by simp only [worldCreateEntity, if_pos hcond]⟩
  · intro h
    have hcond : ¬(st ≠ WorldLifecycleState.setup ∧
        (pd = false ∨ env ≠ "test")) := fun hcon => hcon.1 h
    exact ⟨by simp only [worldBuild, if_neg hcond],
           by simp only [worldCreateEntity, if_neg hcond]⟩
  · rintro ⟨hpd, henv⟩
    have hcond : ¬(st ≠ WorldLifecycleState.setup ∧
        (pd = false ∨ env ≠ "test")) := by
      rintro ⟨-, h | h⟩
      · rw [hpd] at h; cases h
      · exact h henv
    exact ⟨by simp only [worldBuild, if_neg hcond],
           by simp only [worldCreateEntity, if_neg hcond]⟩

/-- C9 witness: in the running state without test mode both methods throw the
CheckError; in the setup state, and in test mode even while running, both
proceed. -/
theorem build_createEntity_state_guard_witness :
    (worldBuild .running false "production" =
      .error (.check "This method cannot be called after the world has started executing")) ∧
    (worldCreateEntity .setup false "production" = .ok .dispatcherCreateEntity) ∧
    (worldBuild .running true "test" = .ok .executeFunction) :=
  ⟨((build_createEntity_state_guard .running false "production").1
      ⟨by decide, by simp⟩).1,
   ((build_createEntity_state_guard .setup false "production").2.1 rfl).2,
   ((build_createEntity_state_guard .running true "test").2.2 ⟨rfl, rfl⟩).1⟩

/-- Helper: when the binding is elastic or has capacity above 1, the shared
reset body marks the previous instance __invalid and issues a fresh one. -/
theorem resetInstance_invalidates (el : Bool) (cap : Nat) (side : InstanceSide)
    (eid : Nat) (idx : Int) (r : Nat) (side2 : InstanceSide)
    (hcond : el = true ∨ cap > 1)
    (h : resetInstance el cap side eid idx = .ok (r, side2)) :
    side.currentInstance ∈ side2.invalidated ∧ r = side2.currentInstance ∧
      r = side.nextInstanceId := by
  by_cases hidx : idx = -1
  · unfold resetInstance at h
    rw [if_pos hidx] at h
    cases h
  · unfold resetInstance at h
    rw [if_neg hidx, if_pos hcond] at h
    cases h
    exact ⟨List.mem_cons_self _ _, rfl, rfl⟩

/-- Helper: on a fixed capacity-1 binding the shared reset body returns the
same instance with the invalidated list untouched. -/
theorem resetInstance_fixed_cap1 (el : Bool) (cap : Nat) (side : InstanceSide)
    (eid : Nat) (idx : Int) (hel : el = false) (hcap : cap = 1)
    (hidx : idx ≠ -1) :
    resetInstance el cap side eid idx =
      .ok (side.currentInstance,
           { side with boundEntityId := eid, boundIndex := idx.toNat }) := by
  have hcond : ¬(el = true ∨ cap > 1) := by
    rintro (h | h)
    · rw [hel] at h; cases h
    · omega
  unfold resetInstance
  rw [if_neg hidx, if_neg hcond]

/-- Helper: inversion of the writable wrapper around resetInstance. -/
theorem resetWritableInstance_ok (b : BindingModel) (eid : Nat) (idx : Int)
    (r : Nat) (b2 : BindingModel)
    (h : resetWritableInstance b eid idx = .ok (r, b2)) :
    resetInstance b.elastic b.capacity b.writable eid idx =
      .ok (r, b2.writable) := by
  unfold resetWritableInstance at h
  cases hri : resetInstance b.elastic b.capacity b.writable eid idx with
  | error e =>
      rw [hri] at h
      cases h
  | ok p =>
      obtain ⟨r0, s0⟩ := p
      rw [hri] at h
      simp only [Except.map] at h
      cases h
      rfl

/-- Helper: inversion of the readonly wrapper around resetInstance. -/
theorem resetReadonlyInstance_ok (b : BindingModel) (eid : Nat) (idx : Int)
    (r : Nat) (b2 : BindingModel)
    (h : resetReadonlyInstance b eid idx = .ok (r, b2)) :
    resetInstance b.elastic b.capacity b.readonly eid idx =
      .ok (r, b2.readonly) := by
  unfold resetReadonlyInstance at h
  cases hri : resetInstance b.elastic b.capacity b.readonly eid idx with
  | error e =>
      rw [hri] at h
      cases h
  | ok p =>
      obtain ⟨r0, s0⟩ := p
      rw [hri] at h
      simp only [Except.map] at h
      cases h
      rfl

/-- C6: when the binding is elastic (the only storages that reallocate; a
packed storage changes capacity only when elastic, last conjunct) or has
capacity above 1, resetWritableInstance and resetReadonlyInstance each mark
the previously issued view of their side __invalid and issue a fresh one;
each side's bookkeeping keeps at most one valid view at any time, from
construction onward; and on a fixed binding with capacity 1 both resets
return the same never-invalidated instance. -/
theorem single_valid_view_per_binding :
    (∀ (b : BindingModel) (eid : Nat) (idx : Int) (r : Nat) (b2 : BindingModel),
        (b.elastic = true ∨ b.capacity > 1) →
        resetWritableInstance b eid idx = .ok (r, b2) →
        b.writable.currentInstance ∈ b2.writable.invalidated ∧
          r = b2.writable.currentInstance ∧ r = b.writable.nextInstanceId) ∧
    (∀ (b : BindingModel) (eid : Nat) (idx : Int) (r : Nat) (b2 : BindingModel),
        (b.elastic = true ∨ b.capacity > 1) →
        resetReadonlyInstance b eid idx = .ok (r, b2) →
        b.readonly.currentInstance ∈ b2.readonly.invalidated ∧
          r = b2.readonly.currentInstance ∧ r = b.readonly.nextInstanceId) ∧
    (∀ (el : Bool) (cap : Nat) (side : InstanceSide) (eid : Nat) (idx : Int)
        (r : Nat) (side2 : InstanceSide),
        SideWF side → (∀ i, ValidInstance side i → i = side.currentInstance) →
        resetInstance el cap side eid idx = .ok (r, side2) →
        SideWF side2 ∧ ∀ i, ValidInstance side2 i → i = side2.currentInstance) ∧
    (∀ (el : Bool) (cap : Nat),
        SideWF (initSide el cap) ∧
        ∀ i, ValidInstance (initSide el cap) i →
          i = (initSide el cap).currentInstance) ∧
    (∀ (b : BindingModel) (eid : Nat) (idx : Int),
        b.elastic = false → b.capacity = 1 → idx ≠ -1 →
        resetWritableInstance b eid idx =
          .ok (b.writable.currentInstance,
               { b with writable :=
                   ⟨b.writable.nextInstanceId, b.writable.currentInstance,
                    b.writable.invalidated, eid, idx.toNat⟩ }) ∧
        resetReadonlyInstance b eid idx =
          .ok (b.readonly.currentInstance,
               { b with readonly :=
                   ⟨b.readonly.nextInstanceId, b.readonly.currentInstance,
                    b.readonly.invalidated, eid, idx.toNat⟩ })) ∧
    (∀ (s s2 : PackedStorage) (id r : Nat),
        s.acquireIndex id = .ok (r, s2) → s2.capacity ≠ s.capacity →
        s.elastic = true) := by
  refine ⟨?_, ?_, ?_, ?_, ?_, ?_⟩
  · intro b eid idx r b2 hcond h
    exact resetInstance_invalidates b.elastic b.capacity b.writable eid idx r
      b2.writable hcond (resetWritableInstance_ok b eid idx r b2 h)
  · intro b eid idx r b2 hcond h
    exact resetInstance_invalidates b.elastic b.capacity b.readonly eid idx r
      b2.readonly hcond (resetReadonlyInstance_ok b eid idx r b2 h)
  · intro el cap side eid idx r side2 hwf hone h
    by_cases hidx : idx = -1
    · unfold resetInstance at h
      rw [if_pos hidx] at h
      cases h
    · by_cases hcond : el = true ∨ cap > 1
      · unfold resetInstance at h
        rw [if_neg hidx, if_pos hcond] at h
        cases h
        refine ⟨⟨Nat.lt_succ_self _, ?_⟩, ?_⟩
        · intro i hi
          rcases List.mem_cons.mp hi with h1 | h1
          · rw [h1]; exact Nat.lt_succ_of_lt hwf.1
          · exact Nat.lt_succ_of_lt (hwf.2 i h1)
        · intro i hvi
          obtain ⟨hlt, hnmem⟩ := hvi
          by_contra hne
          have hlt2 : i < side.nextInstanceId := by
            rcases Nat.lt_succ_iff_lt_or_eq.mp hlt with h2 | h2
            · exact h2
            · exact absurd h2 hne
          have heq : i = side.currentInstance :=
            hone i ⟨hlt2, fun hm => hnmem (List.mem_cons_of_mem _ hm)⟩
          exact hnmem (heq ▸ List.mem_cons_self _ _)
      · unfold resetInstance at h
        rw [if_neg hidx, if_neg hcond] at h
        cases h
        exact ⟨hwf, hone⟩
  · intro el cap
    refine ⟨⟨Nat.zero_lt_one, ?_⟩, ?_⟩
    · intro i hi
      show i < 1
      by_cases hc : el = false ∧ cap > 1
      · simp only [initSide, if_pos hc, List.mem_singleton] at hi
        omega
      · simp only [initSide, if_neg hc, List.not_mem_nil] at hi
    · intro i hvi
      have h1 : i < 1 := hvi.1
      show i = 0
      omega
  · intro b eid idx hel hcap hidx
    constructor
    · unfold resetWritableInstance
      rw [resetInstance_fixed_cap1 b.elastic b.capacity b.writable eid idx
        hel hcap hidx]
      rfl
    · unfold resetReadonlyInstance
      rw [resetInstance_fixed_cap1 b.elastic b.capacity b.readonly eid idx
        hel hcap hidx]
      rfl
  · intro s s2 id r hacq hcap
    cases hb : s.elastic with
    | true => rfl
    | false => exact absurd (packed_acquire_fixed_capacity s s2 id r hb hacq) hcap

/-- C6 witness: on an elastic binding both a writable and a readonly rebind
invalidate the old view of their side and issue a fresh one which is the
single valid view, while a fixed capacity-1 binding keeps both of its
original instances. -/
theorem single_valid_view_per_binding_witness :
    ((0 : Nat) ∈
      (⟨true, 8, ⟨2, 1, [0], 3, 0⟩, ⟨1, 0, [], 0, 0⟩⟩ :
        BindingModel).writable.invalidated) ∧
    ((0 : Nat) ∈
      (⟨true, 8, ⟨1, 0, [], 0, 0⟩, ⟨2, 1, [0], 3, 0⟩⟩ :
        BindingModel).readonly.invalidated) ∧
    (SideWF (⟨2, 1, [0], 3, 0⟩ : InstanceSide)) ∧
    (resetWritableInstance (initBinding false 1) 3 0 =
      .ok (0, ⟨false, 1, ⟨1, 0, [], 3, 0⟩, ⟨1, 0, [], 0, 0⟩⟩)) ∧
    (resetReadonlyInstance (initBinding false 1) 3 0 =
      .ok (0, ⟨false, 1, ⟨1, 0, [], 0, 0⟩, ⟨1, 0, [], 3, 0⟩⟩)) ∧
    (SideWF (initSide true 8)) ∧
    ((⟨100, true, 8, 8, [], [-1]⟩ : PackedStorage).elastic = true) := by
  have h4 := single_valid_view_per_binding.2.2.2.1 true 8
  have h1 := single_valid_view_per_binding.1 (initBinding true 8) 3 0 1
      ⟨true, 8, ⟨2, 1, [0], 3, 0⟩, ⟨1, 0, [], 0, 0⟩⟩ (Or.inl rfl) rfl
  have h2 := single_valid_view_per_binding.2.1 (initBinding true 8) 3 0 1
      ⟨true, 8, ⟨1, 0, [], 0, 0⟩, ⟨2, 1, [0], 3, 0⟩⟩ (Or.inl rfl) rfl
  have h3 := single_valid_view_per_binding.2.2.1 true 8 (initSide true 8) 3 0 1
      ⟨2, 1, [0], 3, 0⟩ h4.1 h4.2 rfl
  have h5 := single_valid_view_per_binding.2.2.2.2.1 (initBinding false 1) 3 0
      rfl rfl (by decide)
  have h6 := single_valid_view_per_binding.2.2.2.2.2
      ⟨100, true, 8, 8, [], [-1]⟩ ⟨100, true, 16, 9, [], [8]⟩ 0 8
      (by rfl) (by decide)
  exact ⟨h1.1, h2.1, h3.1, h5.1, h5.2, h4.1, h6⟩

/-- C3: in the packed-storage resurrection scenario (add(B,1); remove(B) in
frame 1, add(B,2); remove(B) in frame 2), frame 3 opts into
accessRecentlyDeletedData and reads B.value = 2; once the post-frame sweep
of frame 3 finally releases the slot, reading B in frame 4 fails as not
present, with or without the opt-in. -/
theorem resurrection_window :
    ((resRun 3).map ResState.lastValue = .ok 2) ∧
    ((resRun 3).bind (fun s => readB s false) =
      .error (.check "Component B is not present on this entity")) ∧
    (resRun 4 = .error (.check "Component B is not present on this entity")) :=
  ⟨rfl, rfl, rfl⟩

/-- C7: the wrapper coroutine adds 1 and yields the started child, which adds
1, yields, and returns 5; after the first frame the counter is 2 and the
wrapper is still suspended on the incomplete child; after the second frame
the child has completed and its return value 5 was delivered as the result
of the wrapper's yield, leaving the counter at 2 + 5 = 7 with the wrapper no
longer suspended. -/
theorem nested_coroutine_return_value :
    ((runWrapper 1).1 = 2) ∧
    ((runWrapper 1).2.isSuspendedOnChild = true) ∧
    ((runWrapper 2).1 = 7) ∧
    ((runWrapper 2).2.isSuspendedOnChild = false) :=
  ⟨rfl, rfl, rfl, rfl⟩

end Fecsy
